import Mathlib

/-!
Shallow embedding of `src/python/OptiTrack.py`, a row-oriented motion-capture
file decoder.  Rows are lists of string fields; Python list indexing (with its
negative-index wraparound), slicing (with clamping), `int(...)` and `float(...)`
conversions, and exception propagation are modelled explicitly.  Float values
are represented exactly, as the scaled-decimal reading of the accepted
literal; the decoders never compute with them, they only store them, so
rounding is irrelevant to the properties proved here.
-/

set_option maxHeartbeats 1000000

/-- Errors a decoding step can raise, mirroring the Python exceptions:
`ValueError` from `int(...)` and `float(...)` (which carry only the offending
text and the attempted conversion), `IndexError` from list indexing, and the
explicit `raise Exception(msg)` calls in the source. -/
inductive Err where
  | valueErrorInt (text : String)
  | valueErrorFloat (text : String)
  | indexError
  | exception (msg : String)
deriving Repr, DecidableEq

deriving instance DecidableEq for Except

/-- Python list indexing `l[i]`: negative indices count from the end,
out-of-range raises IndexError. -/
def pyIndex (l : List String) (i : Int) : Except Err String :=
  let n : Int := l.length
  let j : Int := if i < 0 then i + n else i
  if 0 ≤ j ∧ j < n then .ok (l.getD j.toNat "") else .error .indexError

/-- Python list slicing `l[a:b]` (step 1): bounds are clamped, negative bounds
count from the end, and the result never raises. -/
def pySlice (l : List String) (a b : Int) : List String :=
  let n : Int := l.length
  let a' : Int := if a < 0 then max (a + n) 0 else min a n
  let b' : Int := if b < 0 then max (b + n) 0 else min b n
  (l.take b'.toNat).drop a'.toNat

def digitsValAux : List Char → Nat → Option Nat
  | [], acc => some acc
  | c :: cs, acc =>
    if c.isDigit then digitsValAux cs (acc * 10 + (c.toNat - 48)) else none

/-- Value of a nonempty all-digit character run; `none` otherwise. -/
def digitsVal : List Char → Option Nat
  | [] => none
  | cs => digitsValAux cs 0

/-- Characters of `s` with surrounding whitespace removed, as Python's
`str.strip()` does before numeric conversion. -/
def pyStrip (s : String) : List Char :=
  ((s.data.dropWhile Char.isWhitespace).reverse.dropWhile Char.isWhitespace).reverse

/-- ASCII lowering of one character, as Python's `str.lower()` acts on the
tag strings occurring in this format. -/
def pyLowerChar (c : Char) : Char :=
  if 65 ≤ c.toNat ∧ c.toNat ≤ 90 then Char.ofNat (c.toNat + 32) else c

/-- Python `s.lower()` (restricted to its ASCII action, which is all the tag
comparisons of the source exercise). -/
def pyLower (s : String) : String :=
  ⟨s.data.map pyLowerChar⟩

/-- Python `int(s)` on strings: surrounding whitespace is ignored, then an
optional sign followed by at least one decimal digit. -/
def pyIntCore (s : String) : Option Int :=
  match pyStrip s with
  | '-' :: cs => (digitsVal cs).map (fun n => -(n : Int))
  | '+' :: cs => (digitsVal cs).map (fun n => (n : Int))
  | cs => (digitsVal cs).map (fun n => (n : Int))

def pyInt (s : String) : Except Err Int :=
  match pyIntCore s with
  | some n => .ok n
  | none => .error (.valueErrorInt s)

def parseSign : List Char → Int × List Char
  | '-' :: cs => (-1, cs)
  | '+' :: cs => (1, cs)
  | cs => (1, cs)

def digitsToNat (cs : List Char) : Nat :=
  cs.foldl (fun a c => a * 10 + (c.toNat - 48)) 0

/-- The numeric value of an accepted float literal, kept in the unnormalized
scaled-decimal form `mant / 10^fscale * 10^exp` read off the literal, so that
decoding stays kernel-computable (rational normalization does not reduce in
the kernel); `val` gives the denoted rational number. -/
structure PyFloat where
  mant : Int
  fscale : Nat
  exp : Int
deriving Repr, DecidableEq

def PyFloat.val (q : PyFloat) : ℚ :=
  (q.mant : ℚ) / (10 : ℚ) ^ q.fscale * (10 : ℚ) ^ q.exp

/-- Python `float(s)` on finite decimal literals: optional sign, a mantissa
with at least one digit (`"1."`, `".5"`, `"2"` all accepted, `"."` not), and
an optional exponent part.  The result denotes the exact value of the
literal.  The special `inf`/`nan` spellings are outside the inputs
considered here. -/
def pyFloatCore (s : String) : Option PyFloat :=
  let (sign, cs0) := parseSign (pyStrip s)
  let (ip, cs1) := cs0.span Char.isDigit
  let (fp, cs2) :=
    match cs1 with
    | '.' :: r => r.span Char.isDigit
    | _ => ([], cs1)
  if ip = [] ∧ fp = [] then none
  else
    let mant : Int := sign * (digitsToNat ip * 10 ^ fp.length + digitsToNat fp)
    match cs2 with
    | [] => some ⟨mant, fp.length, 0⟩
    | e :: r =>
      if e = 'e' ∨ e = 'E' then
        let (es, r1) := parseSign r
        let (ed, r2) := r1.span Char.isDigit
        if ed = [] ∨ r2 ≠ [] then none
        else some ⟨mant, fp.length, es * (digitsToNat ed : Int)⟩
      else none

def pyFloat (s : String) : Except Err PyFloat :=
  match pyFloatCore s with
  | some q => .ok q
  | none => .error (.valueErrorFloat s)

/-- Module-level constants of the source. -/
def LEFT_HANDED : Nat := 0

def RIGHT_HANDED : Nat := 1

/-- Trackable state vector length. -/
def TSL : Int := 11

/-- Marker state vector length. -/
def MSL : Int := 3

structure Position where
  x : PyFloat
  y : PyFloat
  z : PyFloat
deriving Repr, DecidableEq

structure QRot where
  qx : PyFloat
  qy : PyFloat
  qz : PyFloat
  qw : PyFloat
deriving Repr, DecidableEq

structure ERot where
  yaw : PyFloat
  pitch : PyFloat
  roll : PyFloat
deriving Repr, DecidableEq

/-- A marker: the id is stored verbatim (never parsed); `none` models the
Python `None` passed for point-cloud markers. -/
structure Marker where
  id : Option String
  pos : Position
deriving Repr, DecidableEq

structure TrackableMarker where
  id : Option String
  pos : Position
  tracked : String
  quality : String
deriving Repr, DecidableEq

structure TrackableState where
  id : Int
  pos : Position
  qrot : QRot
  erot : ERot
deriving Repr, DecidableEq

/-- Position.__init__: x,y,z from fields[0..2]. -/
def Position.ofFields (fields : List String) : Except Err Position := do
  let x ← pyFloat (← pyIndex fields 0)
  let y ← pyFloat (← pyIndex fields 1)
  let z ← pyFloat (← pyIndex fields 2)
  return ⟨x, y, z⟩

/-- QRot.__init__: qx,qy,qz,qw from fields[0..3]. -/
def QRot.ofFields (fields : List String) : Except Err QRot := do
  let qx ← pyFloat (← pyIndex fields 0)
  let qy ← pyFloat (← pyIndex fields 1)
  let qz ← pyFloat (← pyIndex fields 2)
  let qw ← pyFloat (← pyIndex fields 3)
  return ⟨qx, qy, qz, qw⟩

/-- ERot.__init__: yaw,pitch,roll from fields[0..2]. -/
def ERot.ofFields (fields : List String) : Except Err ERot := do
  let yaw ← pyFloat (← pyIndex fields 0)
  let pitch ← pyFloat (← pyIndex fields 1)
  let roll ← pyFloat (← pyIndex fields 2)
  return ⟨yaw, pitch, roll⟩

/-- TrackableState.__init__: id = int(fields[0]), pos = Position(fields[1:4]),
qrot = QRot(fields[4:8]), erot = ERot(fields[8:11]). -/
def TrackableState.ofFields (fields : List String) : Except Err TrackableState := do
  let id ← pyInt (← pyIndex fields 0)
  let pos ← Position.ofFields (pySlice fields 1 4)
  let qrot ← QRot.ofFields (pySlice fields 4 8)
  let erot ← ERot.ofFields (pySlice fields 8 11)
  return ⟨id, pos, qrot, erot⟩

structure Trackable where
  name : String
  id : Int
  num_markers : Int
  markers : List Position
deriving Repr, DecidableEq

structure Frame where
  index : Int
  timestamp : PyFloat
  trackable_count : Int
  trackable_states : List TrackableState
  marker_count : Int
  markers : List Marker
deriving Repr, DecidableEq

structure TrackableFrame where
  index : Int
  timestamp : PyFloat
  name : String
  id : Int
  last_tracked : Int
  marker_count : Int
  markers : List TrackableMarker
  ptcld_markers : List Marker
  mean_error : PyFloat
deriving Repr, DecidableEq

/-- The `for i in range(num_markers)` loop of Trackable.__init__: appends
`Position(fields[idx:idx+MSL])` and advances `idx += MSL`.  `fuel` is the
number of iterations left; the final cursor is returned. -/
def trackableLoop (fields : List String) : Nat → Int → Except Err (List Position × Int)
  | 0, idx => .ok ([], idx)
  | n + 1, idx => do
    let p ← Position.ofFields (pySlice fields idx (idx + MSL))
    let (ps, idx') ← trackableLoop fields n (idx + MSL)
    return (p :: ps, idx')

/-- Trackable.__init__: tag check on fields[0], then name, id, count, then the
marker-position loop starting at offset 4. -/
def Trackable.ofFields (fields : List String) : Except Err Trackable := do
  let f0 ← pyIndex fields 0
  if pyLower f0 ≠ "trackable" then
    throw (.exception
      "You attempted to make a trackable object from data that does not represent a trackable.")
  else
    let name ← pyIndex fields 1
    let id ← pyInt (← pyIndex fields 2)
    let num_markers ← pyInt (← pyIndex fields 3)
    let (markers, _) ← trackableLoop fields num_markers.toNat 4
    return ⟨name, id, num_markers, markers⟩

/-- The trackable-state loop of Frame.__init__: appends
`TrackableState(fields[idx:idx+TSL])` and advances `idx += TSL`.  The guard
`if trackable_count > 0` in the source is redundant: `range` of a nonpositive
count is already empty. -/
def frameStateLoop (fields : List String) : Nat → Int → Except Err (List TrackableState × Int)
  | 0, idx => .ok ([], idx)
  | n + 1, idx => do
    let st ← TrackableState.ofFields (pySlice fields idx (idx + TSL))
    let (sts, idx') ← frameStateLoop fields n (idx + TSL)
    return (st :: sts, idx')

/-- The marker loop of Frame.__init__: `Marker(fields[idx+MSL], fields[idx:idx+MSL])`
(the id argument `fields[idx+MSL]` is evaluated first), then `idx += 4`. -/
def frameMarkerLoop (fields : List String) : Nat → Int → Except Err (List Marker × Int)
  | 0, idx => .ok ([], idx)
  | n + 1, idx => do
    let idStr ← pyIndex fields (idx + MSL)
    let pos ← Position.ofFields (pySlice fields idx (idx + MSL))
    let (ms, idx') ← frameMarkerLoop fields n (idx + 4)
    return (⟨some idStr, pos⟩ :: ms, idx')

/-- Frame.__init__: tag check, header fields [1..3], the trackable-state loop
from offset 4, marker_count at the resulting cursor, then the marker loop. -/
def Frame.ofFields (fields : List String) : Except Err Frame := do
  let f0 ← pyIndex fields 0
  if pyLower f0 ≠ "frame" then
    throw (.exception
      "You attempted to make a frame from something that is not frame data.")
  else
    let index ← pyInt (← pyIndex fields 1)
    let timestamp ← pyFloat (← pyIndex fields 2)
    let trackable_count ← pyInt (← pyIndex fields 3)
    let (trackable_states, idx1) ← frameStateLoop fields trackable_count.toNat 4
    let marker_count ← pyInt (← pyIndex fields idx1)
    let (markers, _) ← frameMarkerLoop fields marker_count.toNat (idx1 + 1)
    return ⟨index, timestamp, trackable_count, trackable_states, marker_count, markers⟩

/-- The first (trackable-marker) loop of TrackableFrame.__init__, with `m` the
declared marker_count and `i` the current iteration index:
`tracked  = fields[idx + (m-i)*MSL + m*MSL + i]`,
`quality  = fields[idx + (m-i)*MSL + m*MSL + m + i]`,
then `TrackableMarker(None, fields[idx:idx+MSL], tracked, quality)` and
`idx += MSL`.  Note `idx` here is the live per-iteration cursor. -/
def tfMarkerLoop (fields : List String) (m : Int) : Nat → Nat → Int →
    Except Err (List TrackableMarker × Int)
  | _, 0, idx => .ok ([], idx)
  | i, n + 1, idx => do
    let tracked ← pyIndex fields (idx + (m - i) * MSL + m * MSL + i)
    let quality ← pyIndex fields (idx + (m - i) * MSL + m * MSL + m + i)
    let pos ← Position.ofFields (pySlice fields idx (idx + MSL))
    let (ms, idx') ← tfMarkerLoop fields m (i + 1) n (idx + MSL)
    return (⟨none, pos, tracked, quality⟩ :: ms, idx')

/-- The second (point-cloud) loop of TrackableFrame.__init__:
`Marker(None, fields[idx:idx+MSL])`, `idx += MSL`. -/
def tfPtcldLoop (fields : List String) : Nat → Int → Except Err (List Marker × Int)
  | 0, idx => .ok ([], idx)
  | n + 1, idx => do
    let pos ← Position.ofFields (pySlice fields idx (idx + MSL))
    let (ms, idx') ← tfPtcldLoop fields n (idx + MSL)
    return (⟨none, pos⟩ :: ms, idx')

/-- TrackableFrame.__init__: header fields [1..6] (fields[0] is never read),
the two marker loops from offset 7, then
`mean_error = float(fields[idx + 2*marker_count])`. -/
def TrackableFrame.ofFields (fields : List String) : Except Err TrackableFrame := do
  let index ← pyInt (← pyIndex fields 1)
  let timestamp ← pyFloat (← pyIndex fields 2)
  let name ← pyIndex fields 3
  let id ← pyInt (← pyIndex fields 4)
  let last_tracked ← pyInt (← pyIndex fields 5)
  let marker_count ← pyInt (← pyIndex fields 6)
  let (markers, idx1) ← tfMarkerLoop fields marker_count 0 marker_count.toNat 7
  let (ptcld_markers, idx2) ← tfPtcldLoop fields marker_count.toNat idx1
  let mean_error ← pyFloat (← pyIndex fields (idx2 + 2 * marker_count))
  return ⟨index, timestamp, name, id, last_tracked, marker_count, markers, ptcld_markers,
    mean_error⟩

structure Run where
  trackables : List Trackable
  frames : List Frame
  trackable_frames : List TrackableFrame
  coord_type : Nat
  framecount : Int
  trackablecount : Int
deriving Repr, DecidableEq

/-- Run.__init__. -/
def Run.init : Run := ⟨[], [], [], RIGHT_HANDED, 0, 0⟩

/-- The `for i in range(self.trackablecount)` sub-read in Run.ReadFile:
each `fp.next()` takes the next row and decodes it as a Trackable; running out
of rows raises StopIteration, which the surrounding `try` swallows (returned
here as `none` for the remaining-row list).  An uncaught decode exception
carries the Run state at the time it is raised. -/
def Run.readNTrackables : Run → Nat → List (List String) →
    Except (Err × Run) (Run × Option (List (List String)))
  | run, 0, rows => .ok (run, some rows)
  | run, _ + 1, [] => .ok (run, none)
  | run, n + 1, r :: rows =>
    match Trackable.ofFields r with
    | .error e => .error (e, run)
    | .ok t => Run.readNTrackables { run with trackables := run.trackables ++ [t] } n rows

/-- One iteration of the `while(1)` dispatch loop of Run.ReadFile, given the
current row and the not-yet-consumed rest of the file.  Returns the updated
Run and the remaining rows (`none`: the iterator was exhausted inside the
info-block sub-read, ending the load).  Errors carry the Run as already
mutated when the exception was raised. -/
def Run.stepRow (run : Run) (fields : List String) (rest : List (List String)) :
    Except (Err × Run) (Run × Option (List (List String))) :=
  match pyIndex fields 0 with
  | .error e => .error (e, run)
  | .ok f0 =>
    if pyLower f0 = "comment" then .ok (run, some rest)
    else if pyLower f0 = "righthanded" then
      .ok ({ run with coord_type := RIGHT_HANDED }, some rest)
    else
      if pyLower f0 = "info" then
        match pyIndex fields 1 with
        | .error e => .error (e, { run with coord_type := LEFT_HANDED })
        | .ok f1 =>
          if pyLower f1 = "framecount" then
            match pyIndex fields 2 with
            | .error e => .error (e, { run with coord_type := LEFT_HANDED })
            | .ok f2 =>
              match pyInt f2 with
              | .error e => .error (e, { run with coord_type := LEFT_HANDED })
              | .ok n => .ok ({ run with coord_type := LEFT_HANDED, framecount := n }, some rest)
          else if pyLower f1 = "trackablecount" then
            match pyIndex fields 2 with
            | .error e => .error (e, { run with coord_type := LEFT_HANDED })
            | .ok f2 =>
              match pyInt f2 with
              | .error e => .error (e, { run with coord_type := LEFT_HANDED })
              | .ok n =>
                if 0 < n then
                  Run.readNTrackables
                    { run with coord_type := LEFT_HANDED, trackablecount := n } n.toNat rest
                else .ok ({ run with coord_type := LEFT_HANDED, trackablecount := n }, some rest)
          else .ok ({ run with coord_type := LEFT_HANDED }, some rest)
      else if pyLower f0 = "frame" then
        match Frame.ofFields fields with
        | .error e => .error (e, { run with coord_type := LEFT_HANDED })
        | .ok fr =>
          .ok ({ run with coord_type := LEFT_HANDED, frames := run.frames ++ [fr] }, some rest)
      else if pyLower f0 = "trackable" then
        match TrackableFrame.ofFields fields with
        | .error e => .error (e, { run with coord_type := LEFT_HANDED })
        | .ok tf =>
          .ok
            ({ run with coord_type := LEFT_HANDED
                        trackable_frames := run.trackable_frames ++ [tf] },
              some rest)
      else .ok ({ run with coord_type := LEFT_HANDED }, some rest)

/-- The `while(1)` loop of Run.ReadFile over the (pre-tokenized) row sequence;
exhaustion of the sequence is the StopIteration that ends the load cleanly. -/
def Run.readRows (run : Run) (rows : List (List String)) : Except (Err × Run) Run :=
  match rows with
  | [] => .ok run
  | fields :: rest =>
    match _h : Run.stepRow run fields rest with
    | .error e => .error e
    | .ok (run', none) => .ok run'
    | .ok (run', some rest') => Run.readRows run' rest'
termination_by rows.length
decreasing_by
  have key : ∀ (n : Nat) (run : Run) (rows : List (List String)) (run' : Run)
      (rest' : List (List String)),
      Run.readNTrackables run n rows = .ok (run', some rest') →
      rest'.length ≤ rows.length := by
    intro n
    induction n with
    | zero =>
      intro run rows run' rest' h
      simp only [Run.readNTrackables] at h
      cases h
      exact Nat.le_refl _
    | succ n ih =>
      intro run rows run' rest' h
      cases rows with
      | nil => simp [Run.readNTrackables] at h
      | cons r rows =>
        simp only [Run.readNTrackables] at h
        split at h
        · exact Except.noConfusion h
        · exact Nat.le_succ_of_le (ih _ _ _ _ h)
  have hstep : rest'.length ≤ rest.length := by
    unfold Run.stepRow at _h
    repeat' split at _h
    all_goals try exact Except.noConfusion _h
    all_goals try (cases _h; exact Nat.le_refl _)
    exact key _ _ _ _ _ _h
  simp only [List.length_cons]
  omega

/-- Run.ReadFile on an already-tokenized list of rows, starting from a fresh
Run (file opening and CSV tokenization are outside the embedded core). -/
def Run.readFile (rows : List (List String)) : Except (Err × Run) Run :=
  Run.readRows Run.init rows

def posDefault : Position := ⟨⟨0, 0, 0⟩, ⟨0, 0, 0⟩, ⟨0, 0, 0⟩⟩

def mDefault : Marker := ⟨none, posDefault⟩

def tmDefault : TrackableMarker := ⟨none, posDefault, "", ""⟩

def tsDefault : TrackableState := ⟨0, posDefault, ⟨⟨0, 0, 0⟩, ⟨0, 0, 0⟩, ⟨0, 0, 0⟩, ⟨0, 0, 0⟩⟩, ⟨⟨0, 0, 0⟩, ⟨0, 0, 0⟩, ⟨0, 0, 0⟩⟩⟩


/-- A hand-constructed TrackableFrame row with marker_count = 2: positions at
offsets 7..18, tracked/quality scalars at 19..22, mean_error at 23. -/
def tfRowM2 : List String :=
  ["x", "1", "0.5", "nm", "2", "3", "2",
   "1.0", "2.0", "3.0", "4.0", "5.0", "6.0",
   "7.0", "8.0", "9.0", "10.0", "11.0", "12.0",
   "t0", "t1", "q0", "q1", "0.25"]

/-- The record produced by decoding `tfRowM2` ("k.0" parses to
PyFloat ⟨10*k, 1, 0⟩, "0.5" to ⟨5, 1, 0⟩, "0.25" to ⟨25, 2, 0⟩). -/
def tfValM2 : TrackableFrame :=
  ⟨1, ⟨5, 1, 0⟩, "nm", 2, 3, 2,
   [⟨none, ⟨⟨10, 1, 0⟩, ⟨20, 1, 0⟩, ⟨30, 1, 0⟩⟩, "t0", "q0"⟩,
    ⟨none, ⟨⟨40, 1, 0⟩, ⟨50, 1, 0⟩, ⟨60, 1, 0⟩⟩, "t1", "q1"⟩],
   [⟨none, ⟨⟨70, 1, 0⟩, ⟨80, 1, 0⟩, ⟨90, 1, 0⟩⟩⟩,
    ⟨none, ⟨⟨100, 1, 0⟩, ⟨110, 1, 0⟩, ⟨120, 1, 0⟩⟩⟩],
   ⟨25, 2, 0⟩⟩

/-- A hand-constructed TrackableFrame row with marker_count = 1: positions at
offsets 7..12, tracked at 13, quality at 14, mean_error at 15; offset 16 holds
a distinct decoy value. -/
def tfRowM1 : List String :=
  ["x", "1", "0.5", "nm", "2", "3", "1",
   "1.0", "2.0", "3.0", "4.0", "5.0", "6.0",
   "t0", "q0", "0.5", "9.9"]

/-- The record produced by decoding `tfRowM1`. -/
def tfValM1 : TrackableFrame :=
  ⟨1, ⟨5, 1, 0⟩, "nm", 2, 3, 1,
   [⟨none, ⟨⟨10, 1, 0⟩, ⟨20, 1, 0⟩, ⟨30, 1, 0⟩⟩, "t0", "q0"⟩],
   [⟨none, ⟨⟨40, 1, 0⟩, ⟨50, 1, 0⟩, ⟨60, 1, 0⟩⟩⟩],
   ⟨5, 1, 0⟩⟩

/-- A valid Trackable row declaring 2 markers. -/
def tRow : List String :=
  ["Trackable", "body", "5", "2", "1.0", "2.0", "3.0", "4.0", "5.0", "6.0"]

/-- The record produced by decoding `tRow`. -/
def tVal : Trackable :=
  ⟨"body", 5, 2,
   [⟨⟨10, 1, 0⟩, ⟨20, 1, 0⟩, ⟨30, 1, 0⟩⟩, ⟨⟨40, 1, 0⟩, ⟨50, 1, 0⟩, ⟨60, 1, 0⟩⟩]⟩


/-- A valid Frame row: T = 1 trackable state (11 fields from offset 4),
marker_count 2 at offset 15, then two 4-wide marker groups. -/
def frameRowW : List String :=
  ["frame", "3", "1.25", "1",
   "9", "0.1", "0.2", "0.3", "0.4", "0.5", "0.6", "0.7", "0.8", "0.9", "1.1",
   "2",
   "1.0", "2.0", "3.0", "77", "4.0", "5.0", "6.0", "88"]

/-- The record produced by decoding `frameRowW`. -/
def frameValW : Frame :=
  ⟨3, ⟨125, 2, 0⟩, 1,
   [⟨9, ⟨⟨1, 1, 0⟩, ⟨2, 1, 0⟩, ⟨3, 1, 0⟩⟩,
     ⟨⟨4, 1, 0⟩, ⟨5, 1, 0⟩, ⟨6, 1, 0⟩, ⟨7, 1, 0⟩⟩,
     ⟨⟨8, 1, 0⟩, ⟨9, 1, 0⟩, ⟨11, 1, 0⟩⟩⟩],
   2,
   [⟨some "77", ⟨⟨10, 1, 0⟩, ⟨20, 1, 0⟩, ⟨30, 1, 0⟩⟩⟩,
    ⟨some "88", ⟨⟨40, 1, 0⟩, ⟨50, 1, 0⟩, ⟨60, 1, 0⟩⟩⟩]⟩


/-! Proof toolkit: inversion and congruence for the `Except` bind chains the
decoders are built from, and arithmetic facts about `pyIndex`/`pySlice`. -/

theorem ebind_ok {ε α β : Type} {x : Except ε α} {f : α → Except ε β} {b : β} :
    x >>= f = .ok b ↔ ∃ a, x = .ok a ∧ f a = .ok b := by
  cases x <;> simp [Bind.bind, Except.bind]

theorem epure_ok {ε α : Type} {a b : α} :
    (pure a : Except ε α) = .ok b ↔ a = b := by
  simp [pure, Except.pure]

theorem ebind_congr {ε α β : Type} {x₁ x₂ : Except ε α} {f₁ f₂ : α → Except ε β}
    (hx : x₁ = x₂) (hf : ∀ a, x₂ = .ok a → f₁ a = f₂ a) : x₁ >>= f₁ = x₂ >>= f₂ := by
  subst hx
  cases hx' : x₁ with
  | error e => simp [Bind.bind, Except.bind]
  | ok a => simp [Bind.bind, Except.bind, hf a hx']

theorem pyIndex_eq_ok {l : List String} {i : Int} (h0 : 0 ≤ i) (h1 : i < (l.length : Int)) :
    pyIndex l i = .ok (l.getD i.toNat "") := by
  simp only [pyIndex]
  rw [if_neg (show ¬ i < 0 by omega), if_pos ⟨h0, h1⟩]

theorem pyIndex_ok_inv {l : List String} {i : Int} {s : String} (h0 : 0 ≤ i)
    (h : pyIndex l i = .ok s) : i < (l.length : Int) ∧ s = l.getD i.toNat "" := by
  simp only [pyIndex] at h
  rw [if_neg (show ¬ i < 0 by omega)] at h
  split at h
  · next hc => exact ⟨hc.2, ((Except.ok.injEq _ _).mp h).symm⟩
  · exact Except.noConfusion h

theorem pyIndex_cons_congr (a b : String) (rest : List String) {i : Int} (h1 : 1 ≤ i) :
    pyIndex (a :: rest) i = pyIndex (b :: rest) i := by
  simp only [pyIndex, List.length_cons]
  rw [if_neg (show ¬ i < 0 by omega)]
  split
  · obtain ⟨k, hk⟩ : ∃ k, i.toNat = k + 1 := ⟨i.toNat - 1, by omega⟩
    rw [hk, List.getD_cons_succ, List.getD_cons_succ]
  · rfl

theorem pySlice_of_nonneg {l : List String} {a b : Int} (ha : 0 ≤ a) (hb : 0 ≤ b) :
    pySlice l a b = (l.take b.toNat).drop a.toNat := by
  simp only [pySlice]
  rw [if_neg (show ¬ a < 0 by omega), if_neg (show ¬ b < 0 by omega)]
  have hlen : ∀ k : Nat, (l.take k).length ≤ l.length := by
    intro k; rw [List.length_take]; exact Nat.min_le_right _ _
  rcases le_or_lt a (l.length : Int) with hal | hal
  · rw [min_eq_left hal]
    rcases le_or_lt b (l.length : Int) with hbl | hbl
    · rw [min_eq_left hbl]
    · rw [min_eq_right hbl.le, Int.toNat_ofNat,
        List.take_of_length_le (Nat.le_refl _), List.take_of_length_le (by omega)]
  · rw [min_eq_right hal.le, Int.toNat_ofNat,
      List.drop_eq_nil_of_le (hlen _), List.drop_eq_nil_of_le (le_trans (hlen _) (by omega))]

theorem pySlice_cons_congr (a b : String) (rest : List String) {lo hi : Int}
    (hlo : 1 ≤ lo) (hhi : 0 ≤ hi) :
    pySlice (a :: rest) lo hi = pySlice (b :: rest) lo hi := by
  rw [pySlice_of_nonneg (by omega) hhi, pySlice_of_nonneg (by omega) hhi]
  obtain ⟨k, hk⟩ : ∃ k, lo.toNat = k + 1 := ⟨lo.toNat - 1, by omega⟩
  rw [hk]
  cases hh : hi.toNat with
  | zero => simp
  | succ j => rw [List.take_succ_cons, List.take_succ_cons,
      List.drop_succ_cons, List.drop_succ_cons]

theorem tfPtcldLoop_spec (fields : List String) :
    ∀ (fuel : Nat) (idx : Int) (l : List Marker) (idxF : Int),
      tfPtcldLoop fields fuel idx = .ok (l, idxF) →
      l.length = fuel ∧ idxF = idx + 3 * fuel ∧
      ∀ j : Nat, j < fuel →
        Position.ofFields (pySlice fields (idx + 3 * j) (idx + 3 * j + MSL))
            = .ok (l.getD j mDefault).pos ∧ (l.getD j mDefault).id = none := by
  intro fuel
  induction fuel with
  | zero =>
    intro idx l idxF h
    simp only [tfPtcldLoop, Except.ok.injEq, Prod.mk.injEq] at h
    obtain ⟨h1, h2⟩ := h
    subst h1; subst h2
    exact ⟨rfl, by omega, fun j hj => absurd hj (Nat.not_lt_zero j)⟩
  | succ n ih =>
    intro idx l idxF h
    simp only [tfPtcldLoop] at h
    rw [ebind_ok] at h
    obtain ⟨pos, hpos, h⟩ := h
    rw [ebind_ok] at h
    obtain ⟨⟨ms, idxR⟩, hrec, h⟩ := h
    rw [epure_ok, Prod.mk.injEq] at h
    obtain ⟨h1, h2⟩ := h
    subst h1; subst h2
    obtain ⟨hlen, hidx, hfacts⟩ := ih (idx + 3) ms idxR hrec
    refine ⟨by simp [hlen], by omega, ?_⟩
    intro j hj
    cases j with
    | zero =>
      have e1 : idx + 3 * ((0 : Nat) : Int) = idx := by push_cast; ring
      rw [e1]
      exact ⟨hpos, rfl⟩
    | succ k =>
      have e1 : idx + 3 * ((k + 1 : Nat) : Int) = (idx + 3) + 3 * (k : Int) := by
        push_cast; ring
      rw [e1, List.getD_cons_succ]
      exact hfacts k (by omega)

theorem trackableLoop_spec (fields : List String) :
    ∀ (fuel : Nat) (idx : Int) (l : List Position) (idxF : Int),
      trackableLoop fields fuel idx = .ok (l, idxF) →
      l.length = fuel ∧ idxF = idx + 3 * fuel ∧
      ∀ j : Nat, j < fuel →
        Position.ofFields (pySlice fields (idx + 3 * j) (idx + 3 * j + MSL))
            = .ok (l.getD j posDefault) := by
  intro fuel
  induction fuel with
  | zero =>
    intro idx l idxF h
    simp only [trackableLoop, Except.ok.injEq, Prod.mk.injEq] at h
    obtain ⟨h1, h2⟩ := h
    subst h1; subst h2
    exact ⟨rfl, by omega, fun j hj => absurd hj (Nat.not_lt_zero j)⟩
  | succ n ih =>
    intro idx l idxF h
    simp only [trackableLoop] at h
    rw [ebind_ok] at h
    obtain ⟨pos, hpos, h⟩ := h
    rw [ebind_ok] at h
    obtain ⟨⟨ms, idxR⟩, hrec, h⟩ := h
    rw [epure_ok, Prod.mk.injEq] at h
    obtain ⟨h1, h2⟩ := h
    subst h1; subst h2
    obtain ⟨hlen, hidx, hfacts⟩ := ih (idx + 3) ms idxR hrec
    refine ⟨by simp [hlen], by omega, ?_⟩
    intro j hj
    cases j with
    | zero =>
      have e1 : idx + 3 * ((0 : Nat) : Int) = idx := by push_cast; ring
      rw [e1]
      exact hpos
    | succ k =>
      have e1 : idx + 3 * ((k + 1 : Nat) : Int) = (idx + 3) + 3 * (k : Int) := by
        push_cast; ring
      rw [e1, List.getD_cons_succ]
      exact hfacts k (by omega)

/-- Spec of the trackable-marker loop when entered at iteration `i` with the
cursor at its live value `7 + 3*i`: the tracked/quality scalars of the marker
produced at global iteration `i + j` come from the absolute offsets
`7 + 6*m + (i+j)` and `7 + 7*m + (i+j)` (the `(m-i)*MSL` term of the source
exactly cancels the cursor advance), and its position from the 3-field slice
at the live cursor. -/
theorem tfMarkerLoop_spec (fields : List String) (m : Int) :
    ∀ (fuel i : Nat) (l : List TrackableMarker) (idxF : Int),
      tfMarkerLoop fields m i fuel (7 + 3 * i) = .ok (l, idxF) →
      l.length = fuel ∧ idxF = 7 + 3 * i + 3 * fuel ∧
      ∀ j : Nat, j < fuel →
        pyIndex fields (7 + 6 * m + ((i + j : Nat) : Int))
            = .ok (l.getD j tmDefault).tracked ∧
        pyIndex fields (7 + 7 * m + ((i + j : Nat) : Int))
            = .ok (l.getD j tmDefault).quality ∧
        Position.ofFields (pySlice fields (7 + 3 * ((i + j : Nat) : Int))
              (7 + 3 * ((i + j : Nat) : Int) + MSL))
            = .ok (l.getD j tmDefault).pos ∧
        (l.getD j tmDefault).id = none := by
  intro fuel
  induction fuel with
  | zero =>
    intro i l idxF h
    simp only [tfMarkerLoop, Except.ok.injEq, Prod.mk.injEq] at h
    obtain ⟨h1, h2⟩ := h
    subst h1; subst h2
    exact ⟨rfl, by omega, fun j hj => absurd hj (Nat.not_lt_zero j)⟩
  | succ n ih =>
    intro i l idxF h
    simp only [tfMarkerLoop] at h
    rw [ebind_ok] at h
    obtain ⟨tracked, htracked, h⟩ := h
    rw [ebind_ok] at h
    obtain ⟨quality, hquality, h⟩ := h
    rw [ebind_ok] at h
    obtain ⟨pos, hpos, h⟩ := h
    rw [ebind_ok] at h
    obtain ⟨⟨ms, idxR⟩, hrec, h⟩ := h
    rw [epure_ok, Prod.mk.injEq] at h
    obtain ⟨h1, h2⟩ := h
    subst h1; subst h2
    rw [show 7 + 3 * (i : Int) + MSL = 7 + 3 * ((i + 1 : Nat) : Int) by
      simp only [MSL]; push_cast; ring] at hrec
    obtain ⟨hlen, hidx, hfacts⟩ := ih (i + 1) ms idxR hrec
    refine ⟨by simp [hlen], by push_cast at hidx ⊢; omega, ?_⟩
    intro j hj
    cases j with
    | zero =>
      rw [show 7 + 6 * m + ((i + 0 : Nat) : Int)
            = 7 + 3 * (i : Int) + (m - (i : Int)) * MSL + m * MSL + (i : Int) by
          simp only [MSL]; push_cast; ring] at *
      rw [show 7 + 7 * m + ((i + 0 : Nat) : Int)
            = 7 + 3 * (i : Int) + (m - (i : Int)) * MSL + m * MSL + m + (i : Int) by
          simp only [MSL]; push_cast; ring]
      rw [show 7 + 3 * ((i + 0 : Nat) : Int) = 7 + 3 * (i : Int) by push_cast; ring]
      exact ⟨htracked, hquality, hpos, rfl⟩
    | succ k =>
      have hf := hfacts k (by omega)
      rw [show i + 1 + k = i + (k + 1) from by omega] at hf
      rw [List.getD_cons_succ]
      exact hf

theorem frameStateLoop_spec (fields : List String) :
    ∀ (fuel : Nat) (idx : Int) (l : List TrackableState) (idxF : Int),
      frameStateLoop fields fuel idx = .ok (l, idxF) →
      l.length = fuel ∧ idxF = idx + 11 * fuel ∧
      ∀ j : Nat, j < fuel →
        TrackableState.ofFields (pySlice fields (idx + 11 * j) (idx + 11 * j + TSL))
            = .ok (l.getD j tsDefault) := by
  intro fuel
  induction fuel with
  | zero =>
    intro idx l idxF h
    simp only [frameStateLoop, Except.ok.injEq, Prod.mk.injEq] at h
    obtain ⟨h1, h2⟩ := h
    subst h1; subst h2
    exact ⟨rfl, by omega, fun j hj => absurd hj (Nat.not_lt_zero j)⟩
  | succ n ih =>
    intro idx l idxF h
    simp only [frameStateLoop] at h
    rw [ebind_ok] at h
    obtain ⟨st, hst, h⟩ := h
    rw [ebind_ok] at h
    obtain ⟨⟨ms, idxR⟩, hrec, h⟩ := h
    rw [epure_ok, Prod.mk.injEq] at h
    obtain ⟨h1, h2⟩ := h
    subst h1; subst h2
    obtain ⟨hlen, hidx, hfacts⟩ := ih (idx + 11) ms idxR hrec
    refine ⟨by simp [hlen], by omega, ?_⟩
    intro j hj
    cases j with
    | zero =>
      have e1 : idx + 11 * ((0 : Nat) : Int) = idx := by push_cast; ring
      rw [e1]
      exact hst
    | succ k =>
      have e1 : idx + 11 * ((k + 1 : Nat) : Int) = (idx + 11) + 11 * (k : Int) := by
        push_cast; ring
      rw [e1, List.getD_cons_succ]
      exact hfacts k (by omega)

theorem frameMarkerLoop_spec (fields : List String) :
    ∀ (fuel : Nat) (idx : Int) (l : List Marker) (idxF : Int),
      frameMarkerLoop fields fuel idx = .ok (l, idxF) →
      l.length = fuel ∧ idxF = idx + 4 * fuel ∧
      ∀ j : Nat, j < fuel →
        (l.getD j mDefault).id = (pyIndex fields (idx + 4 * j + MSL)).toOption ∧
        Position.ofFields (pySlice fields (idx + 4 * j) (idx + 4 * j + MSL))
            = .ok (l.getD j mDefault).pos := by
  intro fuel
  induction fuel with
  | zero =>
    intro idx l idxF h
    simp only [frameMarkerLoop, Except.ok.injEq, Prod.mk.injEq] at h
    obtain ⟨h1, h2⟩ := h
    subst h1; subst h2
    exact ⟨rfl, by omega, fun j hj => absurd hj (Nat.not_lt_zero j)⟩
  | succ n ih =>
    intro idx l idxF h
    simp only [frameMarkerLoop] at h
    rw [ebind_ok] at h
    obtain ⟨idStr, hid, h⟩ := h
    rw [ebind_ok] at h
    obtain ⟨pos, hpos, h⟩ := h
    rw [ebind_ok] at h
    obtain ⟨⟨ms, idxR⟩, hrec, h⟩ := h
    rw [epure_ok, Prod.mk.injEq] at h
    obtain ⟨h1, h2⟩ := h
    subst h1; subst h2
    obtain ⟨hlen, hidx, hfacts⟩ := ih (idx + 4) ms idxR hrec
    refine ⟨by simp [hlen], by omega, ?_⟩
    intro j hj
    cases j with
    | zero =>
      have e1 : idx + 4 * ((0 : Nat) : Int) = idx := by push_cast; ring
      rw [e1, hid]
      exact ⟨rfl, hpos⟩
    | succ k =>
      have e1 : idx + 4 * ((k + 1 : Nat) : Int) = (idx + 4) + 4 * (k : Int) := by
        push_cast; ring
      rw [e1, List.getD_cons_succ]
      exact hfacts k (by omega)

theorem trackableOfFields_inv {fields : List String} {t : Trackable}
    (h : Trackable.ofFields fields = .ok t) :
    ∃ f0 s2 s3 idxF,
      pyIndex fields 0 = .ok f0 ∧ pyLower f0 = "trackable" ∧
      pyIndex fields 1 = .ok t.name ∧
      pyIndex fields 2 = .ok s2 ∧ pyInt s2 = .ok t.id ∧
      pyIndex fields 3 = .ok s3 ∧ pyInt s3 = .ok t.num_markers ∧
      trackableLoop fields t.num_markers.toNat 4 = .ok (t.markers, idxF) := by
  unfold Trackable.ofFields at h
  rw [ebind_ok] at h
  obtain ⟨f0, hf0, h⟩ := h
  split at h
  case isTrue => simp [throw, throwThe, MonadExceptOf.throw] at h
  next hc =>
  have htag : pyLower f0 = "trackable" := by simpa using hc
  rw [ebind_ok] at h
  obtain ⟨name, hname, h⟩ := h
  rw [ebind_ok] at h
  obtain ⟨s2, hs2, h⟩ := h
  rw [ebind_ok] at h
  obtain ⟨id, hid, h⟩ := h
  rw [ebind_ok] at h
  obtain ⟨s3, hs3, h⟩ := h
  rw [ebind_ok] at h
  obtain ⟨nm, hnm, h⟩ := h
  rw [ebind_ok] at h
  obtain ⟨⟨markers, idxF⟩, hloop, h⟩ := h
  rw [epure_ok] at h
  subst h
  exact ⟨f0, s2, s3, idxF, hf0, htag, hname, hs2, hid, hs3, hnm, hloop⟩

theorem frameOfFields_inv {fields : List String} {fr : Frame}
    (h : Frame.ofFields fields = .ok fr) :
    ∃ f0 s1 s2 s3 idx1 sM idxF,
      pyIndex fields 0 = .ok f0 ∧ pyLower f0 = "frame" ∧
      pyIndex fields 1 = .ok s1 ∧ pyInt s1 = .ok fr.index ∧
      pyIndex fields 2 = .ok s2 ∧ pyFloat s2 = .ok fr.timestamp ∧
      pyIndex fields 3 = .ok s3 ∧ pyInt s3 = .ok fr.trackable_count ∧
      frameStateLoop fields fr.trackable_count.toNat 4 = .ok (fr.trackable_states, idx1) ∧
      pyIndex fields idx1 = .ok sM ∧ pyInt sM = .ok fr.marker_count ∧
      frameMarkerLoop fields fr.marker_count.toNat (idx1 + 1) = .ok (fr.markers, idxF) := by
  unfold Frame.ofFields at h
  rw [ebind_ok] at h
  obtain ⟨f0, hf0, h⟩ := h
  split at h
  case isTrue => simp [throw, throwThe, MonadExceptOf.throw] at h
  next hc =>
  have htag : pyLower f0 = "frame" := by simpa using hc
  rw [ebind_ok] at h
  obtain ⟨s1, hs1, h⟩ := h
  rw [ebind_ok] at h
  obtain ⟨index, hindex, h⟩ := h
  rw [ebind_ok] at h
  obtain ⟨s2, hs2, h⟩ := h
  rw [ebind_ok] at h
  obtain ⟨timestamp, hts, h⟩ := h
  rw [ebind_ok] at h
  obtain ⟨s3, hs3, h⟩ := h
  rw [ebind_ok] at h
  obtain ⟨tcount, htc, h⟩ := h
  rw [ebind_ok] at h
  obtain ⟨⟨states, idx1⟩, hstates, h⟩ := h
  rw [ebind_ok] at h
  obtain ⟨sM, hsM, h⟩ := h
  rw [ebind_ok] at h
  obtain ⟨mcount, hmc, h⟩ := h
  rw [ebind_ok] at h
  obtain ⟨⟨markers, idxF⟩, hmarkers, h⟩ := h
  rw [epure_ok] at h
  subst h
  exact ⟨f0, s1, s2, s3, idx1, sM, idxF, hf0, htag, hs1, hindex, hs2, hts, hs3, htc,
    hstates, hsM, hmc, hmarkers⟩

theorem tfOfFields_inv {fields : List String} {tf : TrackableFrame}
    (h : TrackableFrame.ofFields fields = .ok tf) :
    ∃ s1 s2 s4 s5 s6 idx1 idx2 sE,
      pyIndex fields 1 = .ok s1 ∧ pyInt s1 = .ok tf.index ∧
      pyIndex fields 2 = .ok s2 ∧ pyFloat s2 = .ok tf.timestamp ∧
      pyIndex fields 3 = .ok tf.name ∧
      pyIndex fields 4 = .ok s4 ∧ pyInt s4 = .ok tf.id ∧
      pyIndex fields 5 = .ok s5 ∧ pyInt s5 = .ok tf.last_tracked ∧
      pyIndex fields 6 = .ok s6 ∧ pyInt s6 = .ok tf.marker_count ∧
      tfMarkerLoop fields tf.marker_count 0 tf.marker_count.toNat 7
          = .ok (tf.markers, idx1) ∧
      tfPtcldLoop fields tf.marker_count.toNat idx1 = .ok (tf.ptcld_markers, idx2) ∧
      pyIndex fields (idx2 + 2 * tf.marker_count) = .ok sE ∧
      pyFloat sE = .ok tf.mean_error := by
  unfold TrackableFrame.ofFields at h
  rw [ebind_ok] at h
  obtain ⟨s1, hs1, h⟩ := h
  rw [ebind_ok] at h
  obtain ⟨index, hindex, h⟩ := h
  rw [ebind_ok] at h
  obtain ⟨s2, hs2, h⟩ := h
  rw [ebind_ok] at h
  obtain ⟨timestamp, hts, h⟩ := h
  rw [ebind_ok] at h
  obtain ⟨name, hname, h⟩ := h
  rw [ebind_ok] at h
  obtain ⟨s4, hs4, h⟩ := h
  rw [ebind_ok] at h
  obtain ⟨id, hid, h⟩ := h
  rw [ebind_ok] at h
  obtain ⟨s5, hs5, h⟩ := h
  rw [ebind_ok] at h
  obtain ⟨lt, hlt, h⟩ := h
  rw [ebind_ok] at h
  obtain ⟨s6, hs6, h⟩ := h
  rw [ebind_ok] at h
  obtain ⟨mcount, hmc, h⟩ := h
  rw [ebind_ok] at h
  obtain ⟨⟨markers, idx1⟩, hloop, h⟩ := h
  rw [ebind_ok] at h
  obtain ⟨⟨ptcld, idx2⟩, hptcld, h⟩ := h
  rw [ebind_ok] at h
  obtain ⟨sE, hsE, h⟩ := h
  rw [ebind_ok] at h
  obtain ⟨me, hme, h⟩ := h
  rw [epure_ok] at h
  subst h
  exact ⟨s1, s2, s4, s5, s6, idx1, idx2, sE, hs1, hindex, hs2, hts, hname, hs4, hid,
    hs5, hlt, hs6, hmc, hloop, hptcld, hsE, hme⟩

theorem pyIndex_cons_succ (x : String) (rest : List String) {k : Int} (hk : 0 ≤ k) :
    pyIndex (x :: rest) (k + 1) = pyIndex rest k := by
  simp only [pyIndex, List.length_cons]
  rw [if_neg (show ¬ k + 1 < 0 by omega), if_neg (show ¬ k < 0 by omega)]
  rcases lt_or_le k (rest.length : Int) with hlt | hle
  · rw [if_pos ⟨by omega, by push_cast; omega⟩, if_pos ⟨hk, hlt⟩]
    obtain ⟨k', hk'⟩ : ∃ k', (k + 1).toNat = k' + 1 := ⟨k.toNat, by omega⟩
    rw [hk', List.getD_cons_succ, show k' = k.toNat by omega]
  · rw [if_neg (by push_cast; omega), if_neg (by omega)]

theorem tfPtcldLoop_cons_congr (a b : String) (rest : List String) :
    ∀ (fuel : Nat) (idx : Int), 1 ≤ idx →
      tfPtcldLoop (a :: rest) fuel idx = tfPtcldLoop (b :: rest) fuel idx := by
  intro fuel
  induction fuel with
  | zero => intro idx _; rfl
  | succ n ih =>
    intro idx hidx
    simp only [tfPtcldLoop]
    refine ebind_congr ?_ (fun pos _ => ?_)
    · rw [pySlice_cons_congr a b rest hidx (by simp only [MSL]; omega)]
    · exact ebind_congr (ih (idx + MSL) (by simp only [MSL]; omega)) (fun pr _ => rfl)

theorem tfMarkerLoop_cons_congr (a b : String) (rest : List String) (m : Int) :
    ∀ (fuel i : Nat) (idx : Int), 1 ≤ idx → (i : Int) + fuel ≤ m →
      tfMarkerLoop (a :: rest) m i fuel idx = tfMarkerLoop (b :: rest) m i fuel idx := by
  intro fuel
  induction fuel with
  | zero => intro i idx _ _; rfl
  | succ n ih =>
    intro i idx hidx him
    simp only [tfMarkerLoop]
    refine ebind_congr
      (pyIndex_cons_congr a b rest
        (show 1 ≤ idx + (m - (i : Int)) * MSL + m * MSL + (i : Int) by
          simp only [MSL]; push_cast at him; omega))
      (fun tracked _ => ?_)
    refine ebind_congr
      (pyIndex_cons_congr a b rest
        (show 1 ≤ idx + (m - (i : Int)) * MSL + m * MSL + m + (i : Int) by
          simp only [MSL]; push_cast at him; omega))
      (fun quality _ => ?_)
    refine ebind_congr ?_ (fun pos _ => ?_)
    · rw [pySlice_cons_congr a b rest hidx (by simp only [MSL]; omega)]
    · refine ebind_congr
        (ih (i + 1) (idx + MSL) (by simp only [MSL]; omega)
          (by push_cast at him ⊢; omega))
        (fun pr _ => rfl)

theorem Run.readNTrackables_coord_ok (n : Nat) :
    ∀ (run : Run) (rows : List (List String)) (run' : Run)
      (rem : Option (List (List String))),
      Run.readNTrackables run n rows = .ok (run', rem) →
      run'.coord_type = run.coord_type := by
  induction n with
  | zero =>
    intro run rows run' rem h
    simp only [Run.readNTrackables, Except.ok.injEq, Prod.mk.injEq] at h
    rw [← h.1]
  | succ n ih =>
    intro run rows run' rem h
    cases rows with
    | nil =>
      simp only [Run.readNTrackables, Except.ok.injEq, Prod.mk.injEq] at h
      rw [← h.1]
    | cons r rows =>
      simp only [Run.readNTrackables] at h
      split at h
      · exact Except.noConfusion h
      · have hh := ih _ _ _ _ h
        simpa using hh

theorem Run.readNTrackables_coord_err (n : Nat) :
    ∀ (run : Run) (rows : List (List String)) (e : Err) (run' : Run),
      Run.readNTrackables run n rows = .error (e, run') →
      run'.coord_type = run.coord_type := by
  induction n with
  | zero =>
    intro run rows e run' h
    simp only [Run.readNTrackables] at h
    exact Except.noConfusion h
  | succ n ih =>
    intro run rows e run' h
    cases rows with
    | nil =>
      simp only [Run.readNTrackables] at h
      exact Except.noConfusion h
    | cons r rows =>
      simp only [Run.readNTrackables] at h
      split at h
      · next heq =>
        simp only [Except.error.injEq, Prod.mk.injEq] at h
        rw [← h.2]
      · have hh := ih _ _ _ _ h
        simpa using hh

theorem Run.readNTrackables_of_mapM (n : Nat) :
    ∀ (run : Run) (rows : List (List String)) (ts : List Trackable),
      n ≤ rows.length →
      (rows.take n).mapM Trackable.ofFields = .ok ts →
      Run.readNTrackables run n rows
        = .ok ({ run with trackables := run.trackables ++ ts }, some (rows.drop n)) := by
  induction n with
  | zero =>
    intro run rows ts _ hmap
    simp only [List.take_zero, List.mapM_nil, epure_ok] at hmap
    subst hmap
    simp [Run.readNTrackables]
  | succ n ih =>
    intro run rows ts hlen hmap
    cases rows with
    | nil => simp at hlen
    | cons r rows =>
      simp only [List.take_succ_cons, List.mapM_cons] at hmap
      rw [ebind_ok] at hmap
      obtain ⟨t, ht, hmap⟩ := hmap
      rw [ebind_ok] at hmap
      obtain ⟨ts', hts', hmap⟩ := hmap
      rw [epure_ok] at hmap
      subst hmap
      simp only [Run.readNTrackables, ht]
      rw [ih _ rows ts' (by simpa using hlen) hts']
      simp [List.append_assoc]

/-- C1 (counterexample): on a marker_count = 2 row, the tracked scalar of
marker 1 decodes to the field at absolute offset 20 ("t1"), not the field at
the claimed absolute offset base + (M-i)*3 + M*3 + i = 7+3+6+1 = 17 (which
holds "11.0"); likewise quality of marker 1 is "q1", not the field at the
claimed base-relative quality offset 19 ("t0"). -/
theorem C1_counterexample :
    TrackableFrame.ofFields tfRowM2 = .ok tfValM2 ∧
    (tfValM2.markers.getD 1 tmDefault).tracked = "t1" ∧
    tfRowM2.getD (7 + (2 - 1) * 3 + 2 * 3 + 1) "" = "11.0" ∧
    ("t1" : String) ≠ "11.0" ∧
    (tfValM2.markers.getD 1 tmDefault).quality = "q1" ∧
    tfRowM2.getD (7 + (2 - 1) * 3 + 2 * 3 + 2 + 1) "" = "t0" ∧
    ("q1" : String) ≠ "t0" := by
  refine ⟨by decide, rfl, rfl, by decide, rfl, rfl, by decide⟩

/-- C1 (amended): in TrackableFrame decoding, the tracked and quality scalars
of marker j are read at offsets `(m-j)*MSL + m*MSL + j` resp.
`(m-j)*MSL + m*MSL + m + j` relative to the PER-ITERATION cursor `7 + MSL*j`
(not the pre-loop cursor), which simplifies to the absolute offsets
`7 + 6*M + j` for tracked and `7 + 7*M + j` for quality. -/
theorem C1_theorem (fields : List String) (tf : TrackableFrame)
    (h : TrackableFrame.ofFields fields = .ok tf) (j : Nat)
    (hj : j < tf.markers.length) :
    pyIndex fields ((7 + MSL * j) + (tf.marker_count - j) * MSL
          + tf.marker_count * MSL + j)
        = .ok (tf.markers.getD j tmDefault).tracked ∧
    pyIndex fields ((7 + MSL * j) + (tf.marker_count - j) * MSL
          + tf.marker_count * MSL + tf.marker_count + j)
        = .ok (tf.markers.getD j tmDefault).quality ∧
    pyIndex fields (7 + 6 * tf.marker_count + j)
        = .ok (tf.markers.getD j tmDefault).tracked ∧
    pyIndex fields (7 + 7 * tf.marker_count + j)
        = .ok (tf.markers.getD j tmDefault).quality := by
  obtain ⟨s1, s2, s4, s5, s6, idx1, idx2, sE, -, -, -, -, -, -, -, -, -, -, -,
    hloop, -, -, -⟩ := tfOfFields_inv h
  rw [show (7 : Int) = 7 + 3 * ((0 : Nat) : Int) by norm_num] at hloop
  obtain ⟨hlen, -, hfacts⟩ :=
    tfMarkerLoop_spec fields tf.marker_count tf.marker_count.toNat 0 tf.markers idx1 hloop
  have hf := hfacts j (by omega)
  simp only [Nat.zero_add] at hf
  obtain ⟨ht, hq, -, -⟩ := hf
  refine ⟨?_, ?_, ht, hq⟩
  · rw [show (7 + MSL * (j : Int)) + (tf.marker_count - (j : Int)) * MSL
          + tf.marker_count * MSL + (j : Int) = 7 + 6 * tf.marker_count + (j : Int) by
        simp only [MSL]; ring]
    exact ht
  · rw [show (7 + MSL * (j : Int)) + (tf.marker_count - (j : Int)) * MSL
          + tf.marker_count * MSL + tf.marker_count + (j : Int)
          = 7 + 7 * tf.marker_count + (j : Int) by
        simp only [MSL]; ring]
    exact hq

/-- C1 (witness): the amended theorem applied to the concrete marker_count = 2
row at j = 1. -/
theorem C1_witness :
    pyIndex tfRowM2 (7 + 6 * tfValM2.marker_count + ((1 : Nat) : Int))
        = .ok (tfValM2.markers.getD 1 tmDefault).tracked :=
  (C1_theorem tfRowM2 tfValM2 (by decide) 1 (by decide)).2.2.1

/-- C2 (counterexample): on a marker_count = 1 row, mean_error decodes to the
field at absolute offset 15 (value 1/2), while the claimed offset
base + 7*M + 2*M = 7 + 9 = 16 holds "9.9", a different value. -/
theorem C2_counterexample :
    TrackableFrame.ofFields tfRowM1 = .ok tfValM1 ∧
    tfValM1.mean_error.val = 1/2 ∧
    tfRowM1.getD (7 + 7 * 1 + 2 * 1) "" = "9.9" ∧
    pyFloat "9.9" = .ok ⟨99, 1, 0⟩ ∧
    (⟨99, 1, 0⟩ : PyFloat).val = 99/10 ∧
    tfValM1.mean_error.val ≠ (⟨99, 1, 0⟩ : PyFloat).val := by
  refine ⟨by decide, by norm_num [PyFloat.val, tfValM1], rfl, by decide,
    by norm_num [PyFloat.val], by norm_num [PyFloat.val, tfValM1]⟩

/-- C2 (amended): mean_error is read from the field at absolute offset
base + 8*M (base = 7), i.e. 6*M past the marker section plus the extra 2*M
skip, not base + 9*M. -/
theorem C2_theorem (fields : List String) (tf : TrackableFrame)
    (h : TrackableFrame.ofFields fields = .ok tf) (h0 : 0 ≤ tf.marker_count) :
    (pyIndex fields (7 + 8 * tf.marker_count) >>= pyFloat) = .ok tf.mean_error := by
  obtain ⟨s1, s2, s4, s5, s6, idx1, idx2, sE, -, -, -, -, -, -, -, -, -, -, -,
    hloop, hptcld, hsE, hme⟩ := tfOfFields_inv h
  rw [show (7 : Int) = 7 + 3 * ((0 : Nat) : Int) by norm_num] at hloop
  obtain ⟨-, hidx1, -⟩ :=
    tfMarkerLoop_spec fields tf.marker_count tf.marker_count.toNat 0 tf.markers idx1 hloop
  obtain ⟨-, hidx2, -⟩ :=
    tfPtcldLoop_spec fields tf.marker_count.toNat idx1 tf.ptcld_markers idx2 hptcld
  rw [ebind_ok]
  refine ⟨sE, ?_, hme⟩
  rw [show 7 + 8 * tf.marker_count = idx2 + 2 * tf.marker_count by
    push_cast at hidx1 hidx2; omega]
  exact hsE

/-- C2 (witness): the amended theorem applied to the concrete marker_count = 1
row: mean_error comes from offset 7 + 8*1 = 15. -/
theorem C2_witness :
    (pyIndex tfRowM1 (7 + 8 * tfValM1.marker_count) >>= pyFloat)
        = .ok tfValM1.mean_error :=
  C2_theorem tfRowM1 tfValM1 (by decide) (by decide)

/-- C3: after the first pass the cursor sits at base + M*3 (base = 7); the
second pass reads exactly M Position triples sequentially as the point-cloud
markers (no id), so ptcld_markers has length M; and mean_error is read as a
float from the field at cursor_after_second_pass + 2*M = (7 + 3*M + 3*M) + 2*M. -/
theorem C3_theorem (fields : List String) (tf : TrackableFrame)
    (h : TrackableFrame.ofFields fields = .ok tf) (h0 : 0 ≤ tf.marker_count) :
    (∀ (l : List TrackableMarker) (idxM : Int),
      tfMarkerLoop fields tf.marker_count 0 tf.marker_count.toNat 7 = .ok (l, idxM) →
      idxM = 7 + tf.marker_count * 3) ∧
    (tf.ptcld_markers.length : Int) = tf.marker_count ∧
    (∀ j : Nat, j < tf.ptcld_markers.length →
      Position.ofFields (pySlice fields (7 + tf.marker_count * 3 + 3 * j)
            (7 + tf.marker_count * 3 + 3 * j + MSL))
          = .ok (tf.ptcld_markers.getD j mDefault).pos ∧
      (tf.ptcld_markers.getD j mDefault).id = none) ∧
    (pyIndex fields ((7 + tf.marker_count * 3 + tf.marker_count * 3)
          + 2 * tf.marker_count) >>= pyFloat) = .ok tf.mean_error := by
  obtain ⟨s1, s2, s4, s5, s6, idx1, idx2, sE, -, -, -, -, -, -, -, -, -, -, -,
    hloop, hptcld, hsE, hme⟩ := tfOfFields_inv h
  have hloop7 := hloop
  rw [show (7 : Int) = 7 + 3 * ((0 : Nat) : Int) by norm_num] at hloop
  obtain ⟨-, hidx1, -⟩ :=
    tfMarkerLoop_spec fields tf.marker_count tf.marker_count.toNat 0 tf.markers idx1 hloop
  obtain ⟨hlen2, hidx2, hfacts2⟩ :=
    tfPtcldLoop_spec fields tf.marker_count.toNat idx1 tf.ptcld_markers idx2 hptcld
  have hidx1' : idx1 = 7 + tf.marker_count * 3 := by push_cast at hidx1; omega
  refine ⟨?_, ?_, ?_, ?_⟩
  · intro l idxM hl
    rw [hloop7] at hl
    have := (Except.ok.injEq _ _).mp hl
    rw [Prod.mk.injEq] at this
    rw [← this.2, hidx1']
  · omega
  · intro j hj
    have hf := hfacts2 j (by omega)
    rw [show 7 + tf.marker_count * 3 + 3 * (j : Int) = idx1 + 3 * (j : Int) by omega]
    exact hf
  · rw [ebind_ok]
    refine ⟨sE, ?_, hme⟩
    rw [show (7 + tf.marker_count * 3 + tf.marker_count * 3) + 2 * tf.marker_count
          = idx2 + 2 * tf.marker_count by omega]
    exact hsE

/-- C3 (witness): the theorem applied to the concrete marker_count = 2 row:
the point-cloud marker list has length 2 and mean_error comes from offset
(7 + 6 + 6) + 4 = 23. -/
theorem C3_witness :
    (tfValM2.ptcld_markers.length : Int) = tfValM2.marker_count ∧
    (pyIndex tfRowM2 ((7 + tfValM2.marker_count * 3 + tfValM2.marker_count * 3)
          + 2 * tfValM2.marker_count) >>= pyFloat) = .ok tfValM2.mean_error :=
  ⟨(C3_theorem tfRowM2 tfValM2 (by decide) (by decide)).2.1,
   (C3_theorem tfRowM2 tfValM2 (by decide) (by decide)).2.2.2⟩

/-- C4: a row whose first field lowers to neither "comment" nor "righthanded"
sets the Run's handedness to LEFT_HANDED before any further tag handling (the
flag is LEFT_HANDED in the resulting state even when the rest of the row's
handling fails, and whatever record handling follows), including "info",
"frame" and "trackable" rows; a "righthanded" row sets RIGHT_HANDED. -/
theorem C4_theorem (run : Run) (fields : List String) (rest : List (List String))
    (f0 : String) (h0 : pyIndex fields 0 = .ok f0) :
    (pyLower f0 ≠ "comment" → pyLower f0 ≠ "righthanded" →
      (∀ (run' : Run) (rem : Option (List (List String))),
        Run.stepRow run fields rest = .ok (run', rem) →
        run'.coord_type = LEFT_HANDED) ∧
      (∀ (e : Err) (run' : Run),
        Run.stepRow run fields rest = .error (e, run') →
        run'.coord_type = LEFT_HANDED)) ∧
    (pyLower f0 = "righthanded" →
      Run.stepRow run fields rest
        = .ok ({ run with coord_type := RIGHT_HANDED }, some rest)) := by
  constructor
  · intro hc hr
    constructor
    · intro run' rem hstep
      simp only [Run.stepRow, h0] at hstep
      rw [if_neg hc, if_neg hr] at hstep
      repeat' split at hstep
      all_goals first
        | exact Except.noConfusion hstep
        | (cases hstep; rfl)
        | (have hcoord := Run.readNTrackables_coord_ok _ _ _ _ _ hstep
           simpa using hcoord)
    · intro e run' hstep
      simp only [Run.stepRow, h0] at hstep
      rw [if_neg hc, if_neg hr] at hstep
      repeat' split at hstep
      all_goals first
        | exact Except.noConfusion hstep
        | (cases hstep; rfl)
        | (have hcoord := Run.readNTrackables_coord_err _ _ _ _ _ hstep
           simpa using hcoord)
  · intro hrh
    simp only [Run.stepRow, h0]
    rw [if_neg (show ¬ pyLower f0 = "comment" by rw [hrh]; decide), if_pos hrh]

/-- C4 (witness): the theorem applied to a concrete "info" row (which is
neither "comment" nor "righthanded") and to a concrete "righthanded" row. -/
theorem C4_witness :
    (∀ (run' : Run) (rem : Option (List (List String))),
      Run.stepRow Run.init ["info", "framecount", "42"] [] = .ok (run', rem) →
      run'.coord_type = LEFT_HANDED) ∧
    Run.stepRow Run.init ["RightHanded"] []
      = .ok ({ Run.init with coord_type := RIGHT_HANDED }, some []) :=
  ⟨((C4_theorem Run.init ["info", "framecount", "42"] [] "info" (by decide)).1
      (by decide) (by decide)).1,
   (C4_theorem Run.init ["RightHanded"] [] "RightHanded" (by decide)).2 (by decide)⟩

/-- C9: a row whose first field lowers to "comment" leaves the Run unchanged
and consumes no further rows: the step returns the identical Run state and
the untouched remaining row list. -/
theorem C9_theorem (run : Run) (fields : List String) (rest : List (List String))
    (f0 : String) (h0 : pyIndex fields 0 = .ok f0) (hc : pyLower f0 = "comment") :
    Run.stepRow run fields rest = .ok (run, some rest) := by
  simp only [Run.stepRow, h0]
  rw [if_pos hc]

/-- C9 (witness): the concrete row ["comment", "ignored"] produces no side
effect on a fresh Run. -/
theorem C9_witness :
    Run.stepRow Run.init ["comment", "ignored"] [] = .ok (Run.init, some []) :=
  C9_theorem Run.init ["comment", "ignored"] [] "comment" (by decide) (by decide)

/-- C7: an "info"/"trackablecount" row with value N > 0 consumes exactly the
next N rows of the stream, decodes each as a Trackable appended in order to
Run.trackables, and leaves the stream at `drop N` — so the (N+1)-th following
row is not consumed by the sub-read. -/
theorem C7_theorem (run : Run) (fields : List String) (rest : List (List String))
    (f0 f1 f2 : String) (N : Int) (ts : List Trackable)
    (h0 : pyIndex fields 0 = .ok f0) (hf0 : pyLower f0 = "info")
    (h1 : pyIndex fields 1 = .ok f1) (hf1 : pyLower f1 = "trackablecount")
    (h2 : pyIndex fields 2 = .ok f2) (hN : pyInt f2 = .ok N) (hpos : 0 < N)
    (hlen : N.toNat ≤ rest.length)
    (hmap : (rest.take N.toNat).mapM Trackable.ofFields = .ok ts) :
    Run.stepRow run fields rest
      = .ok ({ run with
                coord_type := LEFT_HANDED
                trackablecount := N
                trackables := run.trackables ++ ts },
             some (rest.drop N.toNat)) := by
  simp only [Run.stepRow, h0, h1, h2, hN]
  rw [if_neg (show ¬ pyLower f0 = "comment" by rw [hf0]; decide),
      if_neg (show ¬ pyLower f0 = "righthanded" by rw [hf0]; decide),
      if_pos hf0,
      if_neg (show ¬ pyLower f1 = "framecount" by rw [hf1]; decide),
      if_pos hf1, if_pos hpos]
  rw [Run.readNTrackables_of_mapM N.toNat _ rest ts hlen hmap]

/-- C7 (witness): an ["info","trackablecount","2"] row followed by two valid
trackable rows and one unrelated row populates exactly the 2 trackables and
leaves the unrelated row unconsumed. -/
theorem C7_witness :
    Run.stepRow Run.init ["info", "trackablecount", "2"]
        [tRow, tRow, ["righthanded"]]
      = .ok ({ Run.init with
                coord_type := LEFT_HANDED
                trackablecount := 2
                trackables := Run.init.trackables ++ [tVal, tVal] },
             some [["righthanded"]]) :=
  C7_theorem Run.init ["info", "trackablecount", "2"] [tRow, tRow, ["righthanded"]]
    "info" "trackablecount" "2" 2 [tVal, tVal]
    (by decide) (by decide) (by decide) (by decide) (by decide) (by decide)
    (by decide) (by decide) (by decide)

/-- C5: a well-formed Frame row with trackable_state_count T and marker_count
M yields T TrackableStates, each consuming 11 consecutive fields from offset
4; then marker_count is read as an integer at offset 4 + 11*T; then each of
the M markers takes its position from the first 3 fields of its group and its
id from the field at offset group-start + 3, with a fixed stride of 4. -/
theorem C5_theorem (fields : List String) (fr : Frame)
    (h : Frame.ofFields fields = .ok fr)
    (hT : 0 ≤ fr.trackable_count) (hM : 0 ≤ fr.marker_count) :
    (fr.trackable_states.length : Int) = fr.trackable_count ∧
    (∀ j : Nat, j < fr.trackable_states.length →
      TrackableState.ofFields (pySlice fields (4 + 11 * j) (4 + 11 * j + TSL))
        = .ok (fr.trackable_states.getD j tsDefault)) ∧
    (pyIndex fields (4 + 11 * fr.trackable_count) >>= pyInt) = .ok fr.marker_count ∧
    (fr.markers.length : Int) = fr.marker_count ∧
    (∀ j : Nat, j < fr.markers.length →
      (fr.markers.getD j mDefault).id
        = (pyIndex fields ((4 + 11 * fr.trackable_count + 1) + 4 * j + MSL)).toOption ∧
      Position.ofFields (pySlice fields ((4 + 11 * fr.trackable_count + 1) + 4 * j)
            ((4 + 11 * fr.trackable_count + 1) + 4 * j + MSL))
        = .ok (fr.markers.getD j mDefault).pos) := by
  obtain ⟨f0, s1, s2, s3, idx1, sM, idxF, -, -, -, -, -, -, -, -, hstates, hsM, hmc,
    hmarkers⟩ := frameOfFields_inv h
  obtain ⟨hlen1, hidx1, hfacts1⟩ :=
    frameStateLoop_spec fields fr.trackable_count.toNat 4 fr.trackable_states idx1 hstates
  obtain ⟨hlen2, -, hfacts2⟩ :=
    frameMarkerLoop_spec fields fr.marker_count.toNat (idx1 + 1) fr.markers idxF hmarkers
  have hidx1' : idx1 = 4 + 11 * fr.trackable_count := by omega
  refine ⟨by omega, ?_, ?_, by omega, ?_⟩
  · intro j hj
    exact hfacts1 j (by omega)
  · rw [ebind_ok]
    exact ⟨sM, by rwa [← hidx1'], hmc⟩
  · intro j hj
    have hf := hfacts2 j (by omega)
    rw [show (4 + 11 * fr.trackable_count + 1) + 4 * (j : Int)
          = (idx1 + 1) + 4 * (j : Int) by omega]
    exact hf

/-- C5 (witness): the theorem applied to a concrete Frame row with T = 1 and
M = 2. -/
theorem C5_witness :
    (frameValW.trackable_states.length : Int) = frameValW.trackable_count ∧
    (frameValW.markers.length : Int) = frameValW.marker_count ∧
    (pyIndex frameRowW (4 + 11 * frameValW.trackable_count) >>= pyInt)
      = .ok frameValW.marker_count :=
  ⟨(C5_theorem frameRowW frameValW (by decide) (by decide) (by decide)).1,
   (C5_theorem frameRowW frameValW (by decide) (by decide) (by decide)).2.2.2.1,
   (C5_theorem frameRowW frameValW (by decide) (by decide) (by decide)).2.2.1⟩

theorem pyIndex_take {l : List String} {i k : Int} (h0 : 0 ≤ i) (hik : i < k) :
    pyIndex (l.take k.toNat) i = pyIndex l i := by
  have hni : ¬ i < 0 := by omega
  simp only [pyIndex, List.length_take]
  rw [if_neg hni, if_neg hni]
  by_cases hl : i < (l.length : Int)
  · rw [if_pos ⟨h0, by push_cast; omega⟩, if_pos ⟨h0, hl⟩]
    simp only [List.getD_eq_getElem?_getD,
      List.getElem?_take_of_lt (show i.toNat < k.toNat by omega)]
  · rw [if_neg (by push_cast; omega), if_neg (by omega)]

theorem pySlice_take {l : List String} {a b k : Int} (ha : 0 ≤ a) (hb : 0 ≤ b)
    (hbk : b ≤ k) :
    pySlice (l.take k.toNat) a b = pySlice l a b := by
  rw [pySlice_of_nonneg ha hb, pySlice_of_nonneg ha hb, List.take_take,
    Nat.min_eq_left (by omega)]

theorem trackableLoop_take (fields : List String) (K : Int) :
    ∀ (fuel : Nat) (idx : Int), 0 ≤ idx → idx + 3 * fuel ≤ K →
      trackableLoop (fields.take K.toNat) fuel idx = trackableLoop fields fuel idx := by
  intro fuel
  induction fuel with
  | zero => intro idx _ _; rfl
  | succ n ih =>
    intro idx hidx hK
    simp only [trackableLoop]
    refine ebind_congr ?_ (fun pos _ => ?_)
    · rw [pySlice_take hidx (by simp only [MSL]; omega)
        (by simp only [MSL]; push_cast at hK; omega)]
    · refine ebind_congr (ih (idx + MSL) (by simp only [MSL]; omega)
        (by simp only [MSL]; push_cast at hK ⊢; omega)) (fun pr _ => rfl)

/-- Decoding a Trackable row only looks at the first 4 + 3*N fields: once the
declared count parses to N ≥ 0 and the truncation keeps at least 4 + 3*N
fields, the decode result is unchanged. -/
theorem Trackable.ofFields_take_congr (fields : List String) (s3 : String) (N K : Int)
    (hs3 : pyIndex fields 3 = .ok s3) (hN : pyInt s3 = .ok N) (h0 : 0 ≤ N)
    (hK : 4 + 3 * N ≤ K) :
    Trackable.ofFields (fields.take K.toNat) = Trackable.ofFields fields := by
  unfold Trackable.ofFields
  refine ebind_congr (pyIndex_take (by norm_num) (by omega)) (fun f0 _ => ?_)
  by_cases htag : pyLower f0 ≠ "trackable"
  · rw [if_pos htag, if_pos htag]
  · rw [if_neg htag, if_neg htag]
    refine ebind_congr (pyIndex_take (by norm_num) (by omega)) (fun name _ => ?_)
    refine ebind_congr (pyIndex_take (by norm_num) (by omega)) (fun s2 _ => ?_)
    refine ebind_congr rfl (fun id _ => ?_)
    refine ebind_congr (pyIndex_take (by norm_num) (by omega)) (fun s3' hs3' => ?_)
    refine ebind_congr rfl (fun n hn => ?_)
    have hs3eq : s3' = s3 := by
      rw [hs3] at hs3'
      exact ((Except.ok.injEq _ _).mp hs3').symm
    have hneq : n = N := by
      rw [hs3eq, hN] at hn
      exact ((Except.ok.injEq _ _).mp hn).symm
    subst hneq
    refine ebind_congr (trackableLoop_take fields K n.toNat 4 (by norm_num)
      (by omega)) (fun pr _ => rfl)

theorem Position.ofFields_ok_length {s : List String} {p : Position}
    (h : Position.ofFields s = .ok p) : 3 ≤ s.length := by
  unfold Position.ofFields at h
  rw [ebind_ok] at h
  obtain ⟨x0, hx0, h⟩ := h
  rw [ebind_ok] at h
  obtain ⟨x, hx, h⟩ := h
  rw [ebind_ok] at h
  obtain ⟨y0, hy0, h⟩ := h
  rw [ebind_ok] at h
  obtain ⟨y, hy, h⟩ := h
  rw [ebind_ok] at h
  obtain ⟨z0, hz0, h⟩ := h
  have := (pyIndex_ok_inv (by norm_num) hz0).1
  omega

/-- C6: decoding a Trackable row with declared marker count N produces a
marker list of length N, requires (and only consumes) the first 4 + 3*N
fields — the row must be at least that long, truncating it to exactly that
length decodes to the same record — and marker j comes from the 3-field
slice at offset 4 + 3*j. -/
theorem C6_theorem (fields : List String) (t : Trackable)
    (h : Trackable.ofFields fields = .ok t) (h0 : 0 ≤ t.num_markers) :
    (t.markers.length : Int) = t.num_markers ∧
    4 + 3 * t.num_markers ≤ (fields.length : Int) ∧
    Trackable.ofFields (fields.take (4 + 3 * t.num_markers).toNat) = .ok t ∧
    (∀ j : Nat, j < t.markers.length →
      Position.ofFields (pySlice fields (4 + 3 * j) (4 + 3 * j + MSL))
        = .ok (t.markers.getD j posDefault)) := by
  obtain ⟨f0, s2, s3, idxF, hf0, htag, hname, hs2, hid, hs3, hN, hloop⟩ :=
    trackableOfFields_inv h
  obtain ⟨hlen, hidxF, hfacts⟩ :=
    trackableLoop_spec fields t.num_markers.toNat 4 t.markers idxF hloop
  refine ⟨by omega, ?_, ?_, ?_⟩
  · rcases Nat.eq_zero_or_pos t.num_markers.toNat with hz | hposN
    · have h3 := (pyIndex_ok_inv (by norm_num) hs3).1
      omega
    · obtain ⟨n', hn'⟩ : ∃ n', t.num_markers.toNat = n' + 1 :=
        ⟨t.num_markers.toNat - 1, by omega⟩
      have hf := hfacts n' (by omega)
      have hlen3 := Position.ofFields_ok_length hf
      rw [pySlice_of_nonneg (by omega) (by simp only [MSL]; omega)] at hlen3
      rw [List.length_drop, List.length_take] at hlen3
      simp only [MSL] at hlen3
      omega
  · rw [Trackable.ofFields_take_congr fields s3 t.num_markers
      (4 + 3 * t.num_markers) hs3 hN h0 (le_refl _)]
    exact h
  · intro j hj
    exact hfacts j (by omega)

/-- C6 (witness): the theorem applied to the concrete 2-marker trackable row:
10 = 4 + 3*2 fields are required and suffice. -/
theorem C6_witness :
    (tVal.markers.length : Int) = tVal.num_markers ∧
    4 + 3 * tVal.num_markers ≤ (tRow.length : Int) ∧
    Trackable.ofFields (tRow.take (4 + 3 * tVal.num_markers).toNat) = .ok tVal :=
  ⟨(C6_theorem tRow tVal (by decide) (by decide)).1,
   (C6_theorem tRow tVal (by decide) (by decide)).2.1,
   (C6_theorem tRow tVal (by decide) (by decide)).2.2.1⟩

theorem ebind_of_ok {ε α β : Type} {x : Except ε α} {a : α} (h : x = .ok a)
    (f : α → Except ε β) : x >>= f = f a := by
  subst h; rfl

theorem ebind_of_error {ε α β : Type} {x : Except ε α} {e : ε} (h : x = .error e)
    (f : α → Except ε β) : x >>= f = .error e := by
  subst h; rfl

/-- C8 (counterexample): malformed float text at field offset 0 and at field
offset 1 produce IDENTICAL errors, so the raised error cannot carry the
offending field's offset (nor a row index, which decoding never receives). -/
theorem C8_counterexample :
    Position.ofFields ["a", "1.0", "2.0"] = .error (.valueErrorFloat "a") ∧
    Position.ofFields ["1.0", "a", "2.0"] = .error (.valueErrorFloat "a") :=
  ⟨by decide, by decide⟩

/-- C8 (amended): malformed numeric text makes decoding fail with the
ValueError of the conversion, which carries the raw field text and the
attempted type (int vs float) but neither row index nor field offset; and a
row consumed by the trackable-count sub-read whose first field does not lower
to "trackable" fails with the tag-mismatch exception. -/
theorem C8_theorem :
    (∀ (fields : List String) (s : String), pyIndex fields 0 = .ok s →
      pyFloatCore s = none →
      Position.ofFields fields = .error (.valueErrorFloat s)) ∧
    (∀ (run : Run) (n : Nat) (r : List String) (rows : List (List String))
        (f0 : String),
      pyIndex r 0 = .ok f0 → pyLower f0 ≠ "trackable" →
      Run.readNTrackables run (n + 1) (r :: rows)
        = .error (.exception
            "You attempted to make a trackable object from data that does not represent a trackable.",
          run)) ∧
    (∀ (fields : List String) (f0 s : String), pyIndex fields 0 = .ok f0 →
      pyLower f0 = "frame" → pyIndex fields 1 = .ok s → pyIntCore s = none →
      Frame.ofFields fields = .error (.valueErrorInt s)) := by
  refine ⟨?_, ?_, ?_⟩
  · intro fields s h1 h2
    have hf : pyFloat s = .error (.valueErrorFloat s) := by
      simp only [pyFloat, h2]
    simp only [Position.ofFields, ebind_of_ok h1, ebind_of_error hf]
  · intro run n r rows f0 h0 htag
    have ht : Trackable.ofFields r
        = .error (.exception
            "You attempted to make a trackable object from data that does not represent a trackable.") := by
      simp only [Trackable.ofFields, ebind_of_ok h0]
      rw [if_pos htag]
      rfl
    simp only [Run.readNTrackables, ht]
  · intro fields f0 s h0 hf0 h1 h2
    have hi : pyInt s = .error (.valueErrorInt s) := by
      simp only [pyInt, h2]
    simp only [Frame.ofFields, ebind_of_ok h0]
    rw [if_neg (show ¬ pyLower f0 ≠ "frame" by simp [hf0])]
    simp only [ebind_of_ok h1, ebind_of_error hi]

/-- C8 (witness): the amended theorem at concrete inputs: the "1.5.3" field
fails float conversion carrying that text, and a "frame"-tagged row fed to
the trackable-count sub-read fails with the tag-mismatch exception. -/
theorem C8_witness :
    Position.ofFields ["1.5.3", "0.0", "0.0"] = .error (.valueErrorFloat "1.5.3") ∧
    Run.readNTrackables Run.init 1 [["frame", "1"]]
      = .error (.exception
          "You attempted to make a trackable object from data that does not represent a trackable.",
        Run.init) :=
  ⟨C8_theorem.1 ["1.5.3", "0.0", "0.0"] "1.5.3" (by decide) (by decide),
   C8_theorem.2.1 Run.init 0 ["frame", "1"] [] "frame" (by decide) (by decide)⟩

/-- C10: TrackableFrame decoding never inspects field 0 — for any two rows
with the same tail (and a nonnegative parsed marker count, which keeps all
computed offsets at index 1 or beyond), the decode results are identical
whatever the leading tag is — while Frame and Trackable decoding fail with
their tag-mismatch exceptions whenever the leading tag does not lower to
"frame" resp. "trackable". -/
theorem C10_theorem :
    (∀ (a b : String) (rest : List String) (s : String) (M : Int),
      pyIndex rest 5 = .ok s → pyInt s = .ok M → 0 ≤ M →
      TrackableFrame.ofFields (a :: rest) = TrackableFrame.ofFields (b :: rest)) ∧
    (∀ (fields : List String) (f0 : String), pyIndex fields 0 = .ok f0 →
      pyLower f0 ≠ "frame" →
      Frame.ofFields fields
        = .error (.exception
            "You attempted to make a frame from something that is not frame data.")) ∧
    (∀ (fields : List String) (f0 : String), pyIndex fields 0 = .ok f0 →
      pyLower f0 ≠ "trackable" →
      Trackable.ofFields fields
        = .error (.exception
            "You attempted to make a trackable object from data that does not represent a trackable.")) := by
  refine ⟨?_, ?_, ?_⟩
  · intro a b rest s M h5 hM h0M
    unfold TrackableFrame.ofFields
    refine ebind_congr (pyIndex_cons_congr a b rest (by norm_num)) (fun s1 _ => ?_)
    refine ebind_congr rfl (fun index _ => ?_)
    refine ebind_congr (pyIndex_cons_congr a b rest (by norm_num)) (fun s2 _ => ?_)
    refine ebind_congr rfl (fun ts _ => ?_)
    refine ebind_congr (pyIndex_cons_congr a b rest (by norm_num)) (fun name _ => ?_)
    refine ebind_congr (pyIndex_cons_congr a b rest (by norm_num)) (fun s4 _ => ?_)
    refine ebind_congr rfl (fun id _ => ?_)
    refine ebind_congr (pyIndex_cons_congr a b rest (by norm_num)) (fun s5 _ => ?_)
    refine ebind_congr rfl (fun lt _ => ?_)
    refine ebind_congr (pyIndex_cons_congr a b rest (by norm_num)) (fun s6 hs6 => ?_)
    refine ebind_congr rfl (fun m hm => ?_)
    have hs6' : s6 = s := by
      rw [show (6 : Int) = 5 + 1 by norm_num,
        pyIndex_cons_succ b rest (show (0 : Int) ≤ 5 by norm_num), h5] at hs6
      exact ((Except.ok.injEq _ _).mp hs6).symm
    have hmM : m = M := by
      rw [hs6', hM] at hm
      exact ((Except.ok.injEq _ _).mp hm).symm
    subst hmM
    refine ebind_congr (tfMarkerLoop_cons_congr a b rest m m.toNat 0 7 (by norm_num)
      (by omega)) (fun pr hpr => ?_)
    obtain ⟨markers, idx1⟩ := pr
    rw [show (7 : Int) = 7 + 3 * ((0 : Nat) : Int) by norm_num] at hpr
    have hidx1 := (tfMarkerLoop_spec (b :: rest) m m.toNat 0 markers idx1 hpr).2.1
    refine ebind_congr (tfPtcldLoop_cons_congr a b rest m.toNat idx1
      (by push_cast at hidx1; omega)) (fun pr2 hpr2 => ?_)
    obtain ⟨ptcld, idx2⟩ := pr2
    have hidx2 := (tfPtcldLoop_spec (b :: rest) m.toNat idx1 ptcld idx2 hpr2).2.1
    refine ebind_congr (pyIndex_cons_congr a b rest
      (by push_cast at hidx1 hidx2; omega)) (fun sE _ => ?_)
    exact ebind_congr rfl (fun me _ => rfl)
  · intro fields f0 h0 htag
    simp only [Frame.ofFields, ebind_of_ok h0]
    rw [if_pos htag]
    rfl
  · intro fields f0 h0 htag
    simp only [Trackable.ofFields, ebind_of_ok h0]
    rw [if_pos htag]
    rfl

/-- C10 (witness): the theorem at concrete inputs: replacing the (unread)
leading tag of a valid TrackableFrame row changes nothing, and one-field
rows with a wrong tag make Frame/Trackable decoding raise. -/
theorem C10_witness :
    TrackableFrame.ofFields ("x" :: List.tail tfRowM1)
      = TrackableFrame.ofFields ("frame" :: List.tail tfRowM1) ∧
    Frame.ofFields ["nope"]
      = .error (.exception
          "You attempted to make a frame from something that is not frame data.") ∧
    Trackable.ofFields ["nope"]
      = .error (.exception
          "You attempted to make a trackable object from data that does not represent a trackable.") :=
  ⟨C10_theorem.1 "x" "frame" (List.tail tfRowM1) "1" 1 (by decide) (by decide)
      (by decide),
   C10_theorem.2.1 ["nope"] "nope" (by decide) (by decide),
   C10_theorem.2.2 ["nope"] "nope" (by decide) (by decide)⟩
